import Mathlib

/-!
Shallow embedding of `src/main.py` (download-sailfish-l10n), a single-file
crawl / resolve / download / extract / merge pipeline that harvests an
English–Tatar parallel corpus from translate.sailfishos.org.

Modelling conventions:
* HTML/XML pages are modelled by the semantic content the source's CSS
  selectors extract (row text and anchor hrefs; anchors matched by the two
  XLIFF title variants; `trans-unit` elements with their `approved` status
  and optional `source` / `target` children).
* `requests.get` is modelled by one fetch function per stage (the stages
  parse the responses differently); each returns a status code plus the
  parsed content.
* Python's `exit()` in `_get_download_urls` is modelled by an `Option`
  result (`none` = the whole run is killed, every accumulated link lost).
* The uncaught `AttributeError` raised by `e.find('source').get_text()`
  when a child element is missing is modelled by `Except String`.
* The pandas dataframe of dicts `\x7ben, tt, src\x7d` is modelled as `List Row`.
* The download folder's file system is modelled as the ordered list of
  writes `(path, parsed body)` performed by `_download`; a later write to
  the same path overwrites an earlier one.
-/

namespace Sailfish

/-- One row of a `pandas` dataframe with columns `en`, `tt`, `src`
(the dicts appended by `_parse`). -/
structure Row where
  en : String
  tt : String
  src : String
deriving DecidableEq, Repr

/-- One `td.stats-name` cell of a catalog listing page: its visible text
and the href of its `a[href]` anchor when one exists. -/
structure StatsRow where
  text : String
  href : Option String
deriving DecidableEq, Repr

/-- A fetched catalog listing page (root page or resource page): HTTP
status and the cells matched by `tbody.stats td.stats-name`. -/
structure ListingPage where
  status : Nat
  rows : List StatsRow
deriving DecidableEq, Repr

/-- A fetched file page: HTTP status and, inside `div[id=overview-actions].bd`,
the hrefs of anchors titled `Download XLIFF file for offline translation`
(`offlineAnchors`) and those titled `Download file in XLIFF format`
(`formatAnchors`). -/
structure FilePage where
  status : Nat
  offlineAnchors : List String
  formatAnchors : List String
deriving DecidableEq, Repr

/-- One `trans-unit` element of a downloaded XLIFF document: whether its
`approved` attribute equals `yes`, and the text of its `source` and
`target` children (`none` when the child element is absent, in which case
`find(...)` returns `None` in the source). -/
structure TransUnit where
  approved : Bool
  source : Option String
  target : Option String
deriving DecidableEq, Repr

/-- A fetched download response: HTTP status and the body, already viewed
through the XML parse `_parse` will apply to the written file. -/
structure DownloadPage where
  status : Nat
  body : List TransUnit
deriving DecidableEq, Repr

/-- The run environment: the cached `sailfish-tt-en.parquet` harvest
snapshot when it exists, one fetch function per pipeline stage, and the
fastText classifier `model.predict`'s top label. -/
structure Env where
  cacheFile : Option (List Row)
  rootFetch : String → ListingPage
  resourceFetch : String → ListingPage
  fileFetch : String → FilePage
  downloadFetch : String → DownloadPage
  classify : String → String

/-- `BASE_URL = "https://translate.sailfishos.org"` (main.py line 11). -/
def BASE_URL : String := "https://translate.sailfishos.org"

/-- `DOWNLOAD_FOLDER = "resources"` (main.py line 10). -/
def DOWNLOAD_FOLDER : String := "resources"

/-- A character stripped by Python's `str.strip()`. -/
def isPySpace (c : Char) : Bool :=
  c = ' ' || c = '\t' || c = '\n' || c = '\r' || c = '\x0b' || c = '\x0c'

/-- Python's `str.strip()`: drop leading and trailing whitespace. -/
def pyStrip (s : String) : String :=
  String.mk (((s.data.dropWhile isPySpace).reverse.dropWhile isPySpace).reverse)

/-- Accumulator pass for `url.split('/')[-1]`: the run of characters
after the last `/`. -/
def lastSegmentAux (acc : List Char) : List Char → List Char
  | [] => acc
  | c :: rest =>
    if c = '/' then lastSegmentAux [] rest else lastSegmentAux (acc ++ [c]) rest

/-- `url.split('/')[-1]` (main.py line 85). -/
def lastSegment (s : String) : String :=
  String.mk (lastSegmentAux [] s.data)

/-- `text.replace("\n", " ")` (main.py line 128): the pattern is the
single newline character, so the replacement maps characters pointwise. -/
def replaceNewlines (s : String) : String :=
  String.mk (s.data.map (fun c => if c = '\n' then ' ' else c))

/-- The entry one `td.stats-name` cell contributes in
`_get_resource_page_urls` / `_get_file_page_urls`: kept only when the
anchor exists and the stripped text is non-empty
(`if url and resource_name`, main.py lines 24 and 43). -/
def rowEntry (r : StatsRow) : Option (String × String) :=
  match r.href with
  | none => none
  | some u => if pyStrip r.text = "" then none else some (pyStrip r.text, u)

/-- `_get_resource_page_urls` (main.py lines 16-30): one GET of the base
page; on non-200 log and return `[]`; otherwise collect
`(stripped name, href)` per row, skipping rows missing either field. -/
def _get_resource_page_urls (fetch : String → ListingPage) (base_page : String) :
    List (String × String) :=
  let response := fetch base_page
  if response.status = 200 then response.rows.filterMap rowEntry else []

/-- `_get_file_page_urls` (main.py lines 33-49): per resource, GET
`BASE_URL + res_url`; on non-200 log and contribute nothing; otherwise
collect `(res_name, stripped file name, href)` per row. -/
def _get_file_page_urls (fetch : String → ListingPage) :
    List (String × String) → List (String × String × String)
  | [] => []
  | (res_name, res_url) :: rest =>
    let response := fetch (BASE_URL ++ res_url)
    (if response.status = 200 then
      response.rows.filterMap (fun r => (rowEntry r).map (fun p => (res_name, p.1, p.2)))
    else []) ++ _get_file_page_urls fetch rest

/-- The anchor list `(select(v1) or select(v2))` of main.py lines 59-63:
the first title variant that matched any anchor wins. -/
def chooseAnchors (p : FilePage) : List String :=
  if p.offlineAnchors ≠ [] then p.offlineAnchors else p.formatAnchors

/-- `_get_download_urls` (main.py lines 52-73): per file page, GET
`BASE_URL + file_page_url`; on 200 choose the anchors of the first title
variant that matched any (`select(v1) or select(v2)`), emit every chosen
anchor for this file, or skip the file when neither variant matched; on
non-200 call `exit()`, which kills the run and discards every link
accumulated so far (modelled by `none`). -/
def _get_download_urls (fetch : String → FilePage) :
    List (String × String × String) → Option (List (String × String × String))
  | [] => some []
  | (res_name, file_name, file_page_url) :: rest =>
    let response := fetch (BASE_URL ++ file_page_url)
    if response.status = 200 then
      if chooseAnchors response = [] then _get_download_urls fetch rest
      else
        Option.map
          (fun tail =>
            ((chooseAnchors response).map (fun h => (res_name, file_name, h))) ++ tail)
          (_get_download_urls fetch rest)
    else none

/-- `_download` (main.py lines 76-93): per link, GET `BASE_URL +
download_url` streaming; on 200 rebind `file_name` to the URL's last path
segment, write the body to `DOWNLOAD_FOLDER/file_name`, and record
`(res_name, file_name, path_to_file)`; on non-200 log and skip. Returns
the `downloaded_files` list and the ordered list of file writes. -/
def _download (fetch : String → DownloadPage) :
    List (String × String × String) →
      List (String × String × String) × List (String × List TransUnit)
  | [] => ([], [])
  | (res_name, _file_name, download_url) :: rest =>
    let full_url := BASE_URL ++ download_url
    let response := fetch full_url
    let restResult := _download fetch rest
    if response.status = 200 then
      let file_name := lastSegment full_url
      let path_to_file := DOWNLOAD_FOLDER ++ "/" ++ file_name
      ((res_name, file_name, path_to_file) :: restResult.1,
       (path_to_file, response.body) :: restResult.2)
    else restResult

/-- The download folder after a list of writes (earlier writes first):
reading a path yields the last body written to it, `[]` if never written. -/
def fsAfter (writes : List (String × List TransUnit)) (path : String) :
    List TransUnit :=
  (writes.reverse.lookup path).getD []

/-- `_check_is_tatar` (main.py lines 122-129): replace newlines by spaces,
classify, and accept exactly when the top label is the fixed string
`__label__tat_Cyrl`. -/
def _check_is_tatar (classify : String → String) (text : String) : Bool :=
  classify (replaceNewlines text) = "__label__tat_Cyrl"

/-- The loop body of `_parse` over the `approved='yes'` elements of one
file (main.py lines 110-118): `e.find('source')` / `e.find('target')`
return `None` when the child is missing and the subsequent `.get_text()`
raises an uncaught `AttributeError`, killing the run; otherwise strip
both texts and keep the unit only when both are non-empty and
`_check_is_tatar` accepts the target. -/
def parseUnits (classify : String → String) (src : String) :
    List TransUnit → Except String (List Row)
  | [] => Except.ok []
  | ⟨_, none, _⟩ :: _ => Except.error "AttributeError"
  | ⟨_, some _, none⟩ :: _ => Except.error "AttributeError"
  | ⟨_, some s, some t⟩ :: rest =>
    match parseUnits classify src rest with
    | Except.error e => Except.error e
    | Except.ok tail =>
      if pyStrip s ≠ "" ∧ pyStrip t ≠ "" ∧ _check_is_tatar classify (pyStrip t) then
        Except.ok (⟨pyStrip s, pyStrip t, src⟩ :: tail)
      else Except.ok tail

/-- `_parse` (main.py lines 96-119): per downloaded file, set
`src = "sailfish/" + res_name + "/" + file_name`, read the file, select
the `trans-unit[approved='yes']` elements; when none, log and skip the
file; otherwise run the unit loop, an `AttributeError` aborting the run. -/
def _parse (classify : String → String) (fs : String → List TransUnit) :
    List (String × String × String) → Except String (List Row)
  | [] => Except.ok []
  | (res_name, file_name, path_to_file) :: rest =>
    let src := "sailfish/" ++ res_name ++ "/" ++ file_name
    let elements := (fs path_to_file).filter (fun u => u.approved)
    if elements = [] then _parse classify fs rest
    else
      match parseUnits classify src elements with
      | Except.error e => Except.error e
      | Except.ok rows =>
        match _parse classify fs rest with
        | Except.error e => Except.error e
        | Except.ok tail => Except.ok (rows ++ tail)

/-- The dedup key of `drop_duplicates(subset=["en", "tt"])`. -/
def dedupKey (r : Row) : String × String := (r.en, r.tt)

/-- `drop_duplicates(subset=["en", "tt"])` with pandas' default
`keep='first'`, scanning left to right with the set of keys seen so far. -/
def dropDuplicatesAux (seen : List (String × String)) : List Row → List Row
  | [] => []
  | r :: rest =>
    if dedupKey r ∈ seen then dropDuplicatesAux seen rest
    else r :: dropDuplicatesAux (dedupKey r :: seen) rest

/-- `pd.DataFrame.drop_duplicates(subset=["en", "tt"])`, keep first. -/
def drop_duplicates (l : List Row) : List Row :=
  dropDuplicatesAux [] l

/-- `_merge_with_existing_data` (main.py lines 156-162):
`pd.concat([df, existing_data]).drop_duplicates(subset=["en", "tt"])` —
fresh rows precede the previously published rows. -/
def _merge_with_existing_data (df existing_data : List Row) : List Row :=
  drop_duplicates (df ++ existing_data)

/-- Outcome of `_get_dataframe`: the run was killed by `exit()`, the run
died of an uncaught exception, or a harvest table was produced. -/
inductive RunResult where
  | fatalExit : RunResult
  | raised : String → RunResult
  | ok : List Row → RunResult
deriving DecidableEq, Repr

/-- The file list `_get_file_page_urls` hands to `_get_download_urls`
inside `_get_dataframe` (main.py lines 135-139). -/
def resolvedFiles (env : Env) : List (String × String × String) :=
  _get_file_page_urls env.resourceFetch
    (_get_resource_page_urls env.rootFetch (BASE_URL ++ "/tt"))

/-- `_get_dataframe` (main.py lines 131-153): when
`sailfish-tt-en.parquet` exists return it at once, bypassing the whole
crawl; otherwise run the five stages in order. -/
def _get_dataframe (env : Env) : RunResult :=
  match env.cacheFile with
  | some cached => RunResult.ok cached
  | none =>
    match _get_download_urls env.fileFetch (resolvedFiles env) with
    | none => RunResult.fatalExit
    | some download_urls =>
      let dl := _download env.downloadFetch download_urls
      match _parse env.classify (fsAfter dl.2) dl.1 with
      | Except.error e => RunResult.raised e
      | Except.ok data => RunResult.ok data

/-- `main` (main.py lines 165-168): harvest, merge with the published
corpus, write `tt-en.parquet`; `none` means the run died before writing
the merged corpus file. -/
def main (env : Env) (existing_data : List Row) : Option (List Row) :=
  match _get_dataframe env with
  | RunResult.ok df => some (_merge_with_existing_data df existing_data)
  | _ => none

/-- Decidable equality on `Except`, used to evaluate the embedded
functions at concrete inputs. -/
instance {ε α : Type} [DecidableEq ε] [DecidableEq α] :
    DecidableEq (Except ε α) := fun a b =>
  match a, b with
  | Except.error x, Except.error y => decidable_of_iff (x = y) (by simp)
  | Except.error _, Except.ok _ => Decidable.isFalse (by simp)
  | Except.ok _, Except.error _ => Decidable.isFalse (by simp)
  | Except.ok x, Except.ok y => decidable_of_iff (x = y) (by simp)

/-- The end-to-end scenario environment of the spec's §8: one resource row
`greetings`, one file row `hello.ts`, a file page whose only export anchor
is titled `Download file in XLIFF format` with href `/dl/hello.xliff`, a
download body with one approved unit `Hello` / `Sälam`, and a classifier
accepting everything as Tatar. -/
def c1Env : Env :=
  ⟨none,
   fun _ => ⟨200, [⟨"greetings", some "/r/greetings"⟩]⟩,
   fun _ => ⟨200, [⟨"hello.ts", some "/r/greetings/hello"⟩]⟩,
   fun _ => ⟨200, [], ["/dl/hello.xliff"]⟩,
   fun _ => ⟨200, [⟨true, some "Hello", some "Sälam"⟩]⟩,
   fun _ => "__label__tat_Cyrl"⟩

/-- Every row produced by the unit loop of `_parse` comes from a unit of
the processed element list whose `source` and `target` children are
present, carries the loop's `src` string, has stripped non-empty texts
and a target accepted by `_check_is_tatar`. -/
theorem parseUnits_mem (classify : String → String) (src : String)
    (units : List TransUnit) (rows : List Row)
    (hok : parseUnits classify src units = Except.ok rows) :
    ∀ r ∈ rows, ∃ u ∈ units, ∃ s t,
      u.source = some s ∧ u.target = some t ∧
      r.en = pyStrip s ∧ r.tt = pyStrip t ∧ r.src = src ∧
      r.en ≠ "" ∧ r.tt ≠ "" ∧ _check_is_tatar classify r.tt = true := by
  induction units generalizing rows with
  | nil =>
    simp only [parseUnits, Except.ok.injEq] at hok
    subst hok
    intro r hr
    exact absurd hr (List.not_mem_nil r)
  | cons u rest ih =>
    obtain ⟨app, usrc, utgt⟩ := u
    cases usrc with
    | none => simp only [parseUnits] at hok; exact Except.noConfusion hok
    | some s =>
      cases utgt with
      | none => simp only [parseUnits] at hok; exact Except.noConfusion hok
      | some t =>
        cases hrec : parseUnits classify src rest with
        | error e =>
          simp only [parseUnits, hrec] at hok
          exact Except.noConfusion hok
        | ok tail =>
          simp only [parseUnits, hrec] at hok
          have ihtail := ih tail hrec
          split at hok
          · rename_i hcond
            obtain ⟨hen, htt, hcheck⟩ := hcond
            injection hok with hok
            subst hok
            intro r hr
            rcases List.mem_cons.mp hr with hhead | htail
            · subst hhead
              exact ⟨⟨app, some s, some t⟩, List.mem_cons_self _ rest, s, t,
                rfl, rfl, rfl, rfl, rfl, hen, htt, hcheck⟩
            · obtain ⟨u', hu', rest'⟩ := ihtail r htail
              exact ⟨u', List.mem_cons_of_mem _ hu', rest'⟩
          · injection hok with hok
            subst hok
            intro r hr
            obtain ⟨u', hu', rest'⟩ := ihtail r hr
            exact ⟨u', List.mem_cons_of_mem _ hu', rest'⟩

/-- Every row produced by `_parse` comes from an `approved='yes'` unit of
one of the processed files, with the synthetic provenance string
`sailfish/<res_name>/<file_name>` of that file, both texts present and
stripped non-empty, and a target accepted by `_check_is_tatar`. -/
theorem parse_mem (classify : String → String) (fs : String → List TransUnit)
    (files : List (String × String × String)) (data : List Row)
    (hok : _parse classify fs files = Except.ok data) :
    ∀ r ∈ data, ∃ f ∈ files, ∃ u ∈ fs f.2.2, u.approved = true ∧ ∃ s t,
      u.source = some s ∧ u.target = some t ∧
      r.en = pyStrip s ∧ r.tt = pyStrip t ∧
      r.src = "sailfish/" ++ f.1 ++ "/" ++ f.2.1 ∧
      r.en ≠ "" ∧ r.tt ≠ "" ∧ _check_is_tatar classify r.tt = true := by
  induction files generalizing data with
  | nil =>
    simp only [_parse, Except.ok.injEq] at hok
    subst hok
    intro r hr
    exact absurd hr (List.not_mem_nil r)
  | cons f rest ih =>
    obtain ⟨res_name, file_name, path_to_file⟩ := f
    simp only [_parse] at hok
    split at hok
    · intro r hr
      obtain ⟨f', hf', rest'⟩ := ih data hok r hr
      exact ⟨f', List.mem_cons_of_mem _ hf', rest'⟩
    · rename_i hne
      cases hpu : parseUnits classify ("sailfish/" ++ res_name ++ "/" ++ file_name)
          ((fs path_to_file).filter (fun u => u.approved)) with
      | error e => rw [hpu] at hok; exact absurd hok (by simp)
      | ok rows =>
        rw [hpu] at hok
        cases hrec : _parse classify fs rest with
        | error e => rw [hrec] at hok; exact absurd hok (by simp)
        | ok tail =>
          rw [hrec] at hok
          cases hok
          intro r hr
          rcases List.mem_append.mp hr with hhead | htail
          · obtain ⟨u, hu, s, t, hs, ht, hen, htt, hsrc, hne1, hne2, hchk⟩ :=
              parseUnits_mem classify _ _ rows hpu r hhead
            have hmem := List.mem_filter.mp hu
            exact ⟨(res_name, file_name, path_to_file), List.mem_cons_self _ rest,
              u, hmem.1, by simpa using hmem.2, s, t, hs, ht, hen, htt, hsrc,
              hne1, hne2, hchk⟩
          · obtain ⟨f', hf', rest'⟩ := ih tail hrec r htail
            exact ⟨f', List.mem_cons_of_mem _ hf', rest'⟩

/-- Every entry of the `downloaded_files` list comes from an input link
whose GET returned 200; its middle component is the rebound `file_name`
(the last path segment of the full download URL) and its local path is
that name inside the download folder. -/
theorem download_mem (fetch : String → DownloadPage)
    (links : List (String × String × String)) :
    ∀ d ∈ (_download fetch links).1, ∃ x ∈ links,
      (fetch (BASE_URL ++ x.2.2)).status = 200 ∧
      d = (x.1, lastSegment (BASE_URL ++ x.2.2),
           DOWNLOAD_FOLDER ++ "/" ++ lastSegment (BASE_URL ++ x.2.2)) := by
  induction links with
  | nil => intro d hd; exact absurd hd (List.not_mem_nil d)
  | cons x rest ih =>
    obtain ⟨res_name, file_name, download_url⟩ := x
    intro d hd
    simp only [_download] at hd
    split at hd
    · rename_i h200
      rcases List.mem_cons.mp hd with hhead | htail
      · exact ⟨(res_name, file_name, download_url), List.mem_cons_self _ rest,
          h200, hhead⟩
      · obtain ⟨x', hx', rest'⟩ := ih d htail
        exact ⟨x', List.mem_cons_of_mem _ hx', rest'⟩
    · obtain ⟨x', hx', rest'⟩ := ih d hd
      exact ⟨x', List.mem_cons_of_mem _ hx', rest'⟩

/-- C1 counterexample: in the spec's end-to-end scenario the run produces
exactly one record, but its origin is `sailfish/greetings/hello.xliff`
(built from the download URL's basename rebound in `_download`), not the
claimed `sailfish/greetings/hello.ts` built from the catalog file name. -/
theorem c1_counterexample :
    _get_dataframe c1Env
      = RunResult.ok [⟨"Hello", "Sälam", "sailfish/greetings/hello.xliff"⟩]
    ∧ main c1Env []
      = some [⟨"Hello", "Sälam", "sailfish/greetings/hello.xliff"⟩]
    ∧ ("sailfish/greetings/hello.xliff" : String)
        ≠ "sailfish/greetings/hello.ts" := by
  refine ⟨by decide, by decide, by decide⟩

/-- C1 amended: the origin of every harvested record is composed as
`sailfish/<resourceName>/<last path segment of the download URL>` — the
file-name component is the basename of the resolved download link, not
the catalog file name — and in the end-to-end scenario the final corpus
is exactly one record with origin `sailfish/greetings/hello.xliff`. -/
theorem c1_origin_composition :
    (∀ (fetchD : String → DownloadPage) (classify : String → String)
       (links : List (String × String × String)) (data : List Row),
       _parse classify (fsAfter (_download fetchD links).2)
           (_download fetchD links).1 = Except.ok data →
       ∀ r ∈ data, ∃ x ∈ links,
         r.src = "sailfish/" ++ x.1 ++ "/" ++ lastSegment (BASE_URL ++ x.2.2))
    ∧ main c1Env []
      = some [⟨"Hello", "Sälam", "sailfish/greetings/hello.xliff"⟩] := by
  constructor
  · intro fetchD classify links data hok r hr
    obtain ⟨f, hf, u, hu, happ, s, t, hs, ht, hen, htt, hsrc, h1, h2, h3⟩ :=
      parse_mem classify _ _ data hok r hr
    obtain ⟨x, hx, h200, hfx⟩ := download_mem fetchD links f hf
    refine ⟨x, hx, ?_⟩
    rw [hsrc, hfx]
  · decide

/-- C1 witness: the origin-composition half of `c1_origin_composition`
applied to the scenario's single download link. -/
theorem c1_origin_witness :
    ∃ x ∈ [(("greetings" : String), ("hello.ts" : String), ("/dl/hello.xliff" : String))],
      ("sailfish/greetings/hello.xliff" : String)
        = "sailfish/" ++ x.1 ++ "/" ++ lastSegment (BASE_URL ++ x.2.2) :=
  c1_origin_composition.1 (fun _ => ⟨200, [⟨true, some "Hello", some "Sälam"⟩]⟩)
    (fun _ => "__label__tat_Cyrl")
    [("greetings", "hello.ts", "/dl/hello.xliff")]
    [⟨"Hello", "Sälam", "sailfish/greetings/hello.xliff"⟩]
    (by decide)
    ⟨"Hello", "Sälam", "sailfish/greetings/hello.xliff"⟩
    (by decide)

/-- A non-200 file-page response anywhere in the input kills
`_get_download_urls` entirely: the `exit()` call discards every link,
including links already resolved from earlier pages. -/
theorem get_download_urls_fatal (fetch : String → FilePage)
    (files_urls : List (String × String × String))
    (hbad : ∃ x ∈ files_urls, (fetch (BASE_URL ++ x.2.2)).status ≠ 200) :
    _get_download_urls fetch files_urls = none := by
  induction files_urls with
  | nil => obtain ⟨x, hx, _⟩ := hbad; exact absurd hx (List.not_mem_nil x)
  | cons y rest ih =>
    obtain ⟨res_name, file_name, file_page_url⟩ := y
    obtain ⟨x, hx, hxs⟩ := hbad
    rcases List.mem_cons.mp hx with hhead | htail
    · subst hhead
      simp only [_get_download_urls, if_neg hxs]
    · have htl : _get_download_urls fetch rest = none := ih ⟨x, htail, hxs⟩
      by_cases h200 : (fetch (BASE_URL ++ file_page_url)).status = 200
      · simp [_get_download_urls, htl, h200]
      · simp [_get_download_urls, h200]

/-- Environment in which every HTTP request succeeds but the single
downloaded file contains an approved trans-unit with no `source` child
(followed by a perfectly good unit). -/
def c2Env : Env :=
  ⟨none,
   fun _ => ⟨200, [⟨"greetings", some "/r/greetings"⟩]⟩,
   fun _ => ⟨200, [⟨"hello.ts", some "/r/greetings/hello"⟩]⟩,
   fun _ => ⟨200, [], ["/dl/hello.xliff"]⟩,
   fun _ => ⟨200, [⟨true, none, some "x"⟩, ⟨true, some "Hi", some "Sälam"⟩]⟩,
   fun _ => "__label__tat_Cyrl"⟩

/-- Environment whose only file page returns HTTP 404 during download-link
resolution. -/
def c2FatalEnv : Env :=
  ⟨none,
   fun _ => ⟨200, [⟨"greetings", some "/r/greetings"⟩]⟩,
   fun _ => ⟨200, [⟨"hello.ts", some "/r/greetings/hello"⟩]⟩,
   fun _ => ⟨404, [], []⟩,
   fun _ => ⟨200, [⟨true, some "Hello", some "Sälam"⟩]⟩,
   fun _ => "__label__tat_Cyrl"⟩

/-- C2 counterexample: link resolution succeeds for every file page (it
returns one resolved link), yet the run still terminates without
producing a corpus file — the extraction stage kills the run on a single
trans-unit whose `source` child is missing. So it is not true that no
stage other than link resolution terminates the run on a per-item
failure. -/
theorem c2_counterexample :
    _get_download_urls c2Env.fileFetch (resolvedFiles c2Env)
      = some [("greetings", "hello.ts", "/dl/hello.xliff")]
    ∧ _get_dataframe c2Env = RunResult.raised "AttributeError"
    ∧ main c2Env [] = none := by
  refine ⟨by decide, by decide, by decide⟩

/-- C2 amended: a non-200 file-page response during download-link
resolution terminates the run at once — no corpus is produced and every
link already resolved is discarded — and no other stage terminates the
run on a per-item HTTP failure (a non-200 resource page or download is
logged and that item alone is skipped); the extraction stage, however,
does kill the run on a trans-unit missing a `source`/`target` child. -/
theorem c2_resolution_failure_fatal :
    (∀ (env : Env) (existing : List Row),
       env.cacheFile = none →
       (∃ x ∈ resolvedFiles env,
         (env.fileFetch (BASE_URL ++ x.2.2)).status ≠ 200) →
       _get_dataframe env = RunResult.fatalExit ∧ main env existing = none)
    ∧ (∀ (fetch : String → DownloadPage) (res_name file_name download_url : String)
         (rest : List (String × String × String)),
       (fetch (BASE_URL ++ download_url)).status ≠ 200 →
       _download fetch ((res_name, file_name, download_url) :: rest)
         = _download fetch rest)
    ∧ (∀ (fetch : String → ListingPage) (res_name res_url : String)
         (rest : List (String × String)),
       (fetch (BASE_URL ++ res_url)).status ≠ 200 →
       _get_file_page_urls fetch ((res_name, res_url) :: rest)
         = _get_file_page_urls fetch rest) := by
  refine ⟨?_, ?_, ?_⟩
  · intro env existing hcache hbad
    have hdf : _get_dataframe env = RunResult.fatalExit := by
      simp only [_get_dataframe, hcache, get_download_urls_fatal _ _ hbad]
    exact ⟨hdf, by simp only [main, hdf]⟩
  · intro fetch res_name file_name download_url rest hbad
    simp only [_download, if_neg hbad]
  · intro fetch res_name res_url rest hbad
    simp only [_get_file_page_urls, if_neg hbad, List.nil_append]

/-- C2 witness: `c2_resolution_failure_fatal` at the environment whose
only file page 404s — the run produces nothing. -/
theorem c2_witness :
    _get_dataframe c2FatalEnv = RunResult.fatalExit ∧ main c2FatalEnv [] = none :=
  c2_resolution_failure_fatal.1 c2FatalEnv [] rfl
    ⟨("greetings", "hello.ts", "/r/greetings/hello"), by decide, by decide⟩

/-- The file page used by the C6 witness: both title variants match
anchors, the first matching two of them. -/
def c6Fetch : String → FilePage := fun _ => ⟨200, ["/a.xliff", "/b.xliff"], ["/c.xliff"]⟩

/-- C6: on a 200 file page, if the first title variant matched at least
one anchor then the emitted entries for this file are exactly the first
variant's anchors, each paired with the same `(res_name, file_name)` —
the second variant's anchors appear nowhere in the statement, so they
contribute nothing; if the first variant matched nothing, then either the
second matched nothing too and the file contributes no entry at all, or
all the second variant's anchors are emitted, sharing the same file
reference. -/
theorem c6_first_variant_wins (fetch : String → FilePage)
    (res_name file_name file_page_url : String)
    (rest : List (String × String × String))
    (h200 : (fetch (BASE_URL ++ file_page_url)).status = 200) :
    ((fetch (BASE_URL ++ file_page_url)).offlineAnchors ≠ [] →
       _get_download_urls fetch ((res_name, file_name, file_page_url) :: rest)
         = Option.map
             (fun tail =>
               ((fetch (BASE_URL ++ file_page_url)).offlineAnchors.map
                 (fun h => (res_name, file_name, h))) ++ tail)
             (_get_download_urls fetch rest))
    ∧ ((fetch (BASE_URL ++ file_page_url)).offlineAnchors = [] →
       _get_download_urls fetch ((res_name, file_name, file_page_url) :: rest)
         = (if (fetch (BASE_URL ++ file_page_url)).formatAnchors = [] then
             _get_download_urls fetch rest
           else
             Option.map
               (fun tail =>
                 ((fetch (BASE_URL ++ file_page_url)).formatAnchors.map
                   (fun h => (res_name, file_name, h))) ++ tail)
               (_get_download_urls fetch rest))) := by
  constructor
  · intro hne
    simp [_get_download_urls, h200, chooseAnchors, hne]
  · intro h1
    by_cases h2 : (fetch (BASE_URL ++ file_page_url)).formatAnchors = []
    · simp [_get_download_urls, h200, chooseAnchors, h1, h2]
    · simp [_get_download_urls, h200, chooseAnchors, h1, h2]

/-- C6 witness: `c6_first_variant_wins` at a page where both variants
match — only the first variant's two anchors are emitted, both sharing
the same file reference. -/
theorem c6_witness :
    _get_download_urls c6Fetch [("greetings", "hello.ts", "/f")]
      = Option.map
          (fun tail =>
            ((c6Fetch (BASE_URL ++ "/f")).offlineAnchors.map
              (fun h => ("greetings", "hello.ts", h))) ++ tail)
          (_get_download_urls c6Fetch []) :=
  (c6_first_variant_wins c6Fetch "greetings" "hello.ts" "/f" [] (by decide)).1
    (by decide)

/-- C9: `_check_is_tatar` hands the classifier a text in which every
newline has been replaced (the classified text contains no newline
character), and accepts exactly when the returned label is string-equal
to the fixed tag `__label__tat_Cyrl`. -/
theorem c9_newline_free_exact_match (classify : String → String) (text : String) :
    ((replaceNewlines text).data.all (fun c => c != '\n')) = true
    ∧ (_check_is_tatar classify text = true ↔
        classify (replaceNewlines text) = "__label__tat_Cyrl") := by
  constructor
  · simp only [replaceNewlines, List.all_map, List.all_eq_true]
    intro c _
    by_cases h : c = '\n' <;> simp [h]
  · simp [_check_is_tatar]

/-- C9 witness: `c9_newline_free_exact_match` at a concrete classifier
and a text containing an embedded newline. -/
theorem c9_witness :
    ((replaceNewlines "Sä\nlam").data.all (fun c => c != '\n')) = true
    ∧ (_check_is_tatar (fun _ => "__label__tat_Cyrl") "Sä\nlam" = true ↔
        ("__label__tat_Cyrl" : String) = "__label__tat_Cyrl") :=
  c9_newline_free_exact_match (fun _ => "__label__tat_Cyrl") "Sä\nlam"

/-- Appending to a fixed string on the left is cancellable. -/
theorem string_append_cancel_left (s a b : String) (h : s ++ a = s ++ b) :
    a = b := by
  cases s with | mk ds =>
  cases a with | mk da =>
  cases b with | mk db =>
  apply congrArg String.mk
  have h2 : ds ++ da = ds ++ db := by
    have h3 := congrArg String.data h
    simpa [String.data] using h3
  exact List.append_cancel_left h2

/-- The local paths produced by `_download` are, in order, a sublist of
the candidate paths `DOWNLOAD_FOLDER/<last URL segment>` of the input
links (the downloader only ever skips items). -/
theorem download_paths_sublist (fetch : String → DownloadPage)
    (links : List (String × String × String)) :
    List.Sublist ((_download fetch links).1.map (fun d => d.2.2))
      (links.map
        (fun x => DOWNLOAD_FOLDER ++ "/" ++ lastSegment (BASE_URL ++ x.2.2))) := by
  induction links with
  | nil => simp [_download]
  | cons x rest ih =>
    obtain ⟨r, f, u⟩ := x
    by_cases h200 : (fetch (BASE_URL ++ u)).status = 200
    · simp only [_download, if_pos h200, List.map_cons]
      exact List.Sublist.cons₂ _ ih
    · simp only [_download, if_neg h200, List.map_cons]
      exact List.Sublist.cons _ ih

/-- The download response used by the C5 counterexample: every GET
succeeds with an empty body. -/
def c5Fetch : String → DownloadPage := fun _ => ⟨200, []⟩

/-- C5 counterexample: two download links whose URLs share the last path
segment `h.xliff` yield two `DownloadedFile` entries with the identical
local path `resources/h.xliff` — `localPath` is not unique within the
run (the second download overwrites the first on disk). -/
theorem c5_counterexample :
    ((_download c5Fetch
        [("r1", "a.ts", "/dl/h.xliff"), ("r2", "b.ts", "/dl2/h.xliff")]).1.map
      (fun d => d.2.2))
      = ["resources/h.xliff", "resources/h.xliff"]
    ∧ ¬ ((_download c5Fetch
        [("r1", "a.ts", "/dl/h.xliff"), ("r2", "b.ts", "/dl2/h.xliff")]).1.map
      (fun d => d.2.2)).Nodup := by
  refine ⟨by decide, by decide⟩

/-- C5 amended: each local path is `resources/<last segment of the
download URL>`, so the paths of a run are pairwise distinct whenever the
URL basenames of the run's links are pairwise distinct (two links sharing
a basename collide on the same path, the later write overwriting the
earlier); and every path in `downloaded_files` has been fully written
before the list is handed to the extractor. -/
theorem c5_paths_unique_when_basenames_distinct :
    (∀ (fetch : String → DownloadPage) (links : List (String × String × String)),
       ((links.map (fun x => lastSegment (BASE_URL ++ x.2.2))).Nodup) →
       (((_download fetch links).1.map (fun d => d.2.2)).Nodup))
    ∧ (∀ (fetch : String → DownloadPage) (links : List (String × String × String)),
       ∀ d ∈ (_download fetch links).1,
         ∃ body, (d.2.2, body) ∈ (_download fetch links).2) := by
  constructor
  · intro fetch links h
    have hinj : Function.Injective
        (fun seg => DOWNLOAD_FOLDER ++ "/" ++ seg : String → String) := by
      intro a b hab
      exact string_append_cancel_left (DOWNLOAD_FOLDER ++ "/") a b hab
    have hbig : (links.map
        (fun x => DOWNLOAD_FOLDER ++ "/" ++ lastSegment (BASE_URL ++ x.2.2))).Nodup := by
      have hcomp : links.map
          (fun x => DOWNLOAD_FOLDER ++ "/" ++ lastSegment (BASE_URL ++ x.2.2))
          = (links.map (fun x => lastSegment (BASE_URL ++ x.2.2))).map
              (fun seg => DOWNLOAD_FOLDER ++ "/" ++ seg) := by
        rw [List.map_map]
        rfl
      rw [hcomp]
      exact h.map hinj
    exact (download_paths_sublist fetch links).nodup hbig
  · intro fetch links
    induction links with
    | nil => intro d hd; exact absurd hd (List.not_mem_nil d)
    | cons x rest ih =>
      obtain ⟨r, f, u⟩ := x
      by_cases h200 : (fetch (BASE_URL ++ u)).status = 200
      · simp only [_download, if_pos h200]
        intro d hd
        rcases List.mem_cons.mp hd with hhead | htail
        · subst hhead
          exact ⟨(fetch (BASE_URL ++ u)).body, List.mem_cons_self _ _⟩
        · obtain ⟨body, hb⟩ := ih d htail
          exact ⟨body, List.mem_cons_of_mem _ hb⟩
      · simp only [_download, if_neg h200]
        exact ih

/-- C5 witness: `c5_paths_unique_when_basenames_distinct` on two links
with distinct URL basenames — the two local paths are distinct. -/
theorem c5_witness :
    ((_download c5Fetch
        [("r1", "a.ts", "/dl/a.xliff"), ("r2", "b.ts", "/dl/b.xliff")]).1.map
      (fun d => d.2.2)).Nodup :=
  c5_paths_unique_when_basenames_distinct.1 c5Fetch
    [("r1", "a.ts", "/dl/a.xliff"), ("r2", "b.ts", "/dl/b.xliff")] (by decide)

/-- C7: every row extracted by a successful `_parse` run comes from a
trans-unit whose `approved` attribute is `yes` in one of the downloaded
files, both its texts are whitespace-stripped and non-empty, and its
target is accepted by the verifier: the classifier's label on the
newline-stripped target is exactly the fixed tag `__label__tat_Cyrl`. -/
theorem c7_extractor_invariant (classify : String → String)
    (fs : String → List TransUnit)
    (files : List (String × String × String)) (data : List Row)
    (hok : _parse classify fs files = Except.ok data) :
    ∀ r ∈ data,
      (∃ f ∈ files, ∃ u ∈ fs f.2.2, u.approved = true ∧ ∃ s t,
        u.source = some s ∧ u.target = some t ∧
        r.en = pyStrip s ∧ r.tt = pyStrip t)
      ∧ r.en ≠ "" ∧ r.tt ≠ ""
      ∧ classify (replaceNewlines r.tt) = "__label__tat_Cyrl" := by
  intro r hr
  obtain ⟨f, hf, u, hu, happ, s, t, hs, ht, hen, htt, _, hne1, hne2, hchk⟩ :=
    parse_mem classify fs files data hok r hr
  refine ⟨⟨f, hf, u, hu, happ, s, t, hs, ht, hen, htt⟩, hne1, hne2, ?_⟩
  simpa [_check_is_tatar] using hchk

/-- C7 witness: `c7_extractor_invariant` at a one-file run holding a
single approved unit `Hello` / `Sälam` accepted by the classifier. -/
theorem c7_witness :
    (∃ f ∈ [(("greetings" : String), ("hello.xliff" : String),
             ("resources/hello.xliff" : String))],
       ∃ u ∈ [TransUnit.mk true (some "Hello") (some "Sälam")],
         u.approved = true ∧ ∃ s t,
           u.source = some s ∧ u.target = some t ∧
           ("Hello" : String) = pyStrip s ∧ ("Sälam" : String) = pyStrip t)
    ∧ ("Hello" : String) ≠ "" ∧ ("Sälam" : String) ≠ ""
    ∧ ("__label__tat_Cyrl" : String) = "__label__tat_Cyrl" :=
  c7_extractor_invariant (fun _ => "__label__tat_Cyrl")
    (fun _ => [TransUnit.mk true (some "Hello") (some "Sälam")])
    [("greetings", "hello.xliff", "resources/hello.xliff")]
    [⟨"Hello", "Sälam", "sailfish/greetings/hello.xliff"⟩]
    (by decide)
    ⟨"Hello", "Sälam", "sailfish/greetings/hello.xliff"⟩ (by decide)

/-- The download folder used by the C4 counterexample: `bad.xliff` holds
an approved trans-unit with no `source` child, every other file holds one
well-formed approved unit. -/
def c4fs : String → List TransUnit := fun path =>
  if path = "resources/bad.xliff" then [⟨true, none, some "x"⟩]
  else [⟨true, some "Hi", some "Sälam"⟩]

/-- C4 counterexample: an approved trans-unit lacking a `source` child is
not logged-and-skipped — extraction of the remaining units and files does
not continue; the whole parse aborts with an uncaught `AttributeError`,
losing the record the second (well-formed) file would have yielded on its
own. -/
theorem c4_counterexample :
    _parse (fun _ => "__label__tat_Cyrl") c4fs
        [("r", "bad.xliff", "resources/bad.xliff"),
         ("r", "good.xliff", "resources/good.xliff")]
      = Except.error "AttributeError"
    ∧ _parse (fun _ => "__label__tat_Cyrl") c4fs
        [("r", "good.xliff", "resources/good.xliff")]
      = Except.ok [⟨"Hi", "Sälam", "sailfish/r/good.xliff"⟩] := by
  refine ⟨by decide, by decide⟩

/-- The unit loop never errors on a list of units whose `source` and
`target` children are all present. -/
theorem parseUnits_ok_of_fields (classify : String → String) (src : String) :
    ∀ units : List TransUnit,
      (∀ u ∈ units, u.source ≠ none ∧ u.target ≠ none) →
      ∃ rows, parseUnits classify src units = Except.ok rows := by
  intro units
  induction units with
  | nil => intro _; exact ⟨[], rfl⟩
  | cons u rest ih =>
    intro h
    obtain ⟨app, usrc, utgt⟩ := u
    obtain ⟨hs, ht⟩ := h _ (List.mem_cons_self _ rest)
    cases husrc : usrc with
    | none => exact absurd rfl (husrc ▸ hs)
    | some s =>
      cases hutgt : utgt with
      | none => exact absurd rfl (hutgt ▸ ht)
      | some t =>
        obtain ⟨tail, htail⟩ := ih (fun u' hu' => h u' (List.mem_cons_of_mem _ hu'))
        by_cases hcond : pyStrip s ≠ "" ∧ pyStrip t ≠ "" ∧
            _check_is_tatar classify (pyStrip t)
        · exact ⟨⟨pyStrip s, pyStrip t, src⟩ :: tail, by
            simp only [parseUnits, htail, if_pos hcond]⟩
        · exact ⟨tail, by simp only [parseUnits, htail, if_neg hcond]⟩

/-- C4 amended: extraction aborts the run only on a trans-unit with a
missing `source`/`target` child; whenever every approved unit of every
referenced file has both children present, `_parse` completes without
aborting, and a unit whose fields are present but empty after trimming
(or whose target fails verification) is silently skipped while the loop
continues with the remaining units. -/
theorem c4_no_abort_when_children_present :
    (∀ (classify : String → String) (fs : String → List TransUnit)
       (files : List (String × String × String)),
       (∀ f ∈ files, ∀ u ∈ fs f.2.2, u.approved = true →
         u.source ≠ none ∧ u.target ≠ none) →
       ∃ data, _parse classify fs files = Except.ok data)
    ∧ (∀ (classify : String → String) (src : String) (app : Bool)
         (s t : String) (rest : List TransUnit),
       (pyStrip s = "" ∨ pyStrip t = "" ∨
         _check_is_tatar classify (pyStrip t) = false) →
       parseUnits classify src (⟨app, some s, some t⟩ :: rest)
         = parseUnits classify src rest) := by
  constructor
  · intro classify fs files h
    induction files with
    | nil => exact ⟨[], rfl⟩
    | cons f rest ih =>
      obtain ⟨res_name, file_name, path_to_file⟩ := f
      obtain ⟨tail, htail⟩ :=
        ih (fun f' hf' => h f' (List.mem_cons_of_mem _ hf'))
      by_cases hel : (fs path_to_file).filter (fun u => u.approved) = []
      · exact ⟨tail, by simp only [_parse, if_pos hel, htail]⟩
      · obtain ⟨rows, hrows⟩ :=
          parseUnits_ok_of_fields classify
            ("sailfish/" ++ res_name ++ "/" ++ file_name)
            ((fs path_to_file).filter (fun u => u.approved))
            (by
              intro u hu
              have hmem := List.mem_filter.mp hu
              exact h (res_name, file_name, path_to_file)
                (List.mem_cons_self _ rest) u hmem.1 (by simpa using hmem.2))
        exact ⟨rows ++ tail, by simp only [_parse, if_neg hel, hrows, htail]⟩
  · intro classify src app s t rest hbad
    simp only [parseUnits]
    cases hrec : parseUnits classify src rest with
    | error e => rfl
    | ok tail =>
      have hcond : ¬(pyStrip s ≠ "" ∧ pyStrip t ≠ "" ∧
          _check_is_tatar classify (pyStrip t) = true) := by
        rintro ⟨h1, h2, h3⟩
        rcases hbad with hb | hb | hb
        · exact h1 hb
        · exact h2 hb
        · rw [hb] at h3
          exact Bool.noConfusion h3
      exact if_neg hcond

/-- C4 witness: `c4_no_abort_when_children_present` at the well-formed
file of the counterexample environment — extraction completes. -/
theorem c4_witness :
    ∃ data, _parse (fun _ => "__label__tat_Cyrl") c4fs
        [("r", "good.xliff", "resources/good.xliff")] = Except.ok data :=
  c4_no_abort_when_children_present.1 (fun _ => "__label__tat_Cyrl") c4fs
    [("r", "good.xliff", "resources/good.xliff")] (by decide)

/-- Modelled from the spec's words (§3/§4.8), for comparison with the
embedded merge: scan the concatenation keeping an element exactly when no
earlier element of the concatenation has the same `(source, target)`
pair; `processed` is the prefix already scanned. -/
def keepFirstAux (processed : List Row) : List Row → List Row
  | [] => []
  | r :: rest =>
    if ∃ s ∈ processed, dedupKey s = dedupKey r then
      keepFirstAux (processed ++ [r]) rest
    else r :: keepFirstAux (processed ++ [r]) rest

/-- Modelled from the spec's words: deduplication by `(source, target)`
keeping the first occurrence. -/
def keepFirstOccurrence (l : List Row) : List Row :=
  keepFirstAux [] l

/-- The seen-key scan of `drop_duplicates` agrees with the
earlier-occurrence characterisation whenever the seen set is exactly the
key set of the scanned prefix. -/
theorem dropDuplicatesAux_eq_keepFirstAux (l : List Row) :
    ∀ (seen : List (String × String)) (processed : List Row),
      (∀ k, k ∈ seen ↔ ∃ s ∈ processed, dedupKey s = k) →
      dropDuplicatesAux seen l = keepFirstAux processed l := by
  induction l with
  | nil => intro seen processed _; rfl
  | cons r rest ih =>
    intro seen processed hinv
    by_cases hk : dedupKey r ∈ seen
    · have hex : ∃ s ∈ processed, dedupKey s = dedupKey r := (hinv _).mp hk
      rw [dropDuplicatesAux, if_pos hk, keepFirstAux, if_pos hex]
      apply ih
      intro k
      constructor
      · intro hkseen
        obtain ⟨s, hs, he⟩ := (hinv k).mp hkseen
        exact ⟨s, List.mem_append_left _ hs, he⟩
      · rintro ⟨s, hs, he⟩
        rcases List.mem_append.mp hs with hs' | hs'
        · exact (hinv k).mpr ⟨s, hs', he⟩
        · rw [List.mem_singleton.mp hs'] at he
          rw [← he]
          exact hk
    · have hex : ¬ ∃ s ∈ processed, dedupKey s = dedupKey r := by
        rintro ⟨s, hs, he⟩
        exact hk ((hinv _).mpr ⟨s, hs, he⟩)
      rw [dropDuplicatesAux, if_neg hk, keepFirstAux, if_neg hex]
      congr 1
      apply ih
      intro k
      constructor
      · intro hkseen
        rcases List.mem_cons.mp hkseen with hk' | hk'
        · exact ⟨r, List.mem_append_right _ (List.mem_singleton_self r), hk'.symm⟩
        · obtain ⟨s, hs, he⟩ := (hinv k).mp hk'
          exact ⟨s, List.mem_append_left _ hs, he⟩
      · rintro ⟨s, hs, he⟩
        rcases List.mem_append.mp hs with hs' | hs'
        · exact List.mem_cons_of_mem _ ((hinv k).mpr ⟨s, hs', he⟩)
        · rw [List.mem_singleton.mp hs'] at he
          rw [← he]
          exact List.mem_cons_self _ _

/-- C3: the merged corpus is the concatenation of the fresh table before
the published corpus with every row removed whose `(source, target)` pair
already occurred earlier in the concatenation (first occurrence kept);
in particular a fresh and a stale row with the same pair collapse to the
single fresh row, whose provenance survives. -/
theorem c3_merge_keeps_first :
    (∀ fresh old : List Row,
       _merge_with_existing_data fresh old = keepFirstOccurrence (fresh ++ old))
    ∧ (∀ r1 r3 : Row, dedupKey r1 = dedupKey r3 →
       _merge_with_existing_data [r1] [r3] = [r1]) := by
  constructor
  · intro fresh old
    exact dropDuplicatesAux_eq_keepFirstAux (fresh ++ old) [] [] (by simp)
  · intro r1 r3 h
    simp [_merge_with_existing_data, drop_duplicates, dropDuplicatesAux, ← h]

/-- C3 witness: a fresh record and a stale record with the identical
`("hi", "sälam")` pair merge to the single fresh record, keeping the
fresh provenance. -/
theorem c3_witness :
    _merge_with_existing_data [⟨"hi", "sälam", "sailfish/fresh/a.xliff"⟩]
        [⟨"hi", "sälam", "stale/origin"⟩]
      = [⟨"hi", "sälam", "sailfish/fresh/a.xliff"⟩] :=
  c3_merge_keeps_first.2 ⟨"hi", "sälam", "sailfish/fresh/a.xliff"⟩
    ⟨"hi", "sälam", "stale/origin"⟩ rfl

/-- A scan whose every key is already seen produces nothing. -/
theorem dropDuplicatesAux_all_seen (m : List Row) :
    ∀ seen, (∀ r ∈ m, dedupKey r ∈ seen) → dropDuplicatesAux seen m = [] := by
  induction m with
  | nil => intro seen _; rfl
  | cons r rest ih =>
    intro seen h
    rw [dropDuplicatesAux, if_pos (h r (List.mem_cons_self r rest))]
    exact ih seen (fun r' hr' => h r' (List.mem_cons_of_mem r hr'))

/-- Scanning `l ++ m` with a seen set disjoint from the key-Nodup list
`l` keeps `l` intact and continues on `m` with the keys of `l` added. -/
theorem dropDuplicatesAux_append (m : List Row) : ∀ (l : List Row)
    (seen : List (String × String)),
    (∀ r ∈ l, dedupKey r ∉ seen) → (l.map dedupKey).Nodup →
    ∃ seen', (∀ k, k ∈ seen' ↔ k ∈ seen ∨ k ∈ l.map dedupKey) ∧
      dropDuplicatesAux seen (l ++ m) = l ++ dropDuplicatesAux seen' m := by
  intro l
  induction l with
  | nil => intro seen _ _; exact ⟨seen, by simp, by simp⟩
  | cons r rest ih =>
    intro seen hdisj hnodup
    have hk : dedupKey r ∉ seen := hdisj r (List.mem_cons_self r rest)
    have hpair : (∀ x ∈ rest, ¬dedupKey x = dedupKey r) ∧
        (rest.map dedupKey).Nodup := by simpa using hnodup
    have hdisj' : ∀ x ∈ rest, dedupKey x ∉ dedupKey r :: seen := by
      intro x hx
      intro hmem
      rcases List.mem_cons.mp hmem with he | hseen
      · exact hpair.1 x hx he
      · exact hdisj x (List.mem_cons_of_mem r hx) hseen
    have hnodup' : (rest.map dedupKey).Nodup := hpair.2
    obtain ⟨seen', hprop, heq⟩ := ih (dedupKey r :: seen) hdisj' hnodup'
    refine ⟨seen', ?_, ?_⟩
    · intro k
      rw [hprop k]
      simp [List.mem_cons, or_assoc, or_comm, or_left_comm]
    · rw [List.cons_append, dropDuplicatesAux, if_neg hk, heq, List.cons_append]

/-- C8: merging an already deduplicated corpus with itself yields that
corpus unchanged — every key of the second copy has been seen while
scanning the first copy, so the second copy contributes nothing. -/
theorem c8_merge_idempotent (C : List Row) (h : (C.map dedupKey).Nodup) :
    _merge_with_existing_data C C = C := by
  obtain ⟨seen', hprop, heq⟩ :=
    dropDuplicatesAux_append C C [] (by simp) h
  rw [_merge_with_existing_data, drop_duplicates, heq,
    dropDuplicatesAux_all_seen C seen'
      (fun r hr => (hprop (dedupKey r)).mpr
        (Or.inr (List.mem_map_of_mem dedupKey hr))),
    List.append_nil]

/-- C8 witness: `c8_merge_idempotent` at a concrete two-row corpus with
distinct pairs. -/
theorem c8_witness :
    _merge_with_existing_data
        [⟨"hi", "sälam", "a"⟩, ⟨"bye", "sau bul", "b"⟩]
        [⟨"hi", "sälam", "a"⟩, ⟨"bye", "sau bul", "b"⟩]
      = [⟨"hi", "sälam", "a"⟩, ⟨"bye", "sau bul", "b"⟩] :=
  c8_merge_idempotent [⟨"hi", "sälam", "a"⟩, ⟨"bye", "sau bul", "b"⟩] (by decide)

/-- C10: whenever the harvest snapshot file exists, `_get_dataframe`
returns the loaded snapshot unchanged for every possible behaviour of the
five crawl stages — the crawl is bypassed entirely — and `main` merges
exactly that snapshot with the published corpus. -/
theorem c10_cache_bypass (cached : List Row)
    (rootF resF : String → ListingPage) (fileF : String → FilePage)
    (dlF : String → DownloadPage) (cls : String → String)
    (existing : List Row) :
    _get_dataframe ⟨some cached, rootF, resF, fileF, dlF, cls⟩
      = RunResult.ok cached
    ∧ main ⟨some cached, rootF, resF, fileF, dlF, cls⟩ existing
      = some (_merge_with_existing_data cached existing) :=
  ⟨rfl, rfl⟩

end Sailfish
